import Mathlib

/-!
Verification of the Fiona repository build script (`setup.py`) and of the
spec-described vector-data access engine.

The build script is embedded shallowly: Python strings are modelled as
`String`/`List Char`, Python string methods (`split`, `strip`, `find`,
`startswith`) are re-implemented with their Python semantics, the
environment and filesystem are oracles supplied as explicit parameters,
and Python exceptions are `Except` values.
-/

/-- `s.split(sep)` for a one-character separator, Python semantics:
empty fields are kept, so the result always has one more element than the
number of separator occurrences. -/
def pySplitChar (sep : Char) : List Char → List (List Char)
  | [] => [[]]
  | c :: cs =>
    let r := pySplitChar sep cs
    if c = sep then [] :: r
    else
      match r with
      | [] => [[c]]
      | t :: ts => (c :: t) :: ts

/-- Split at every whitespace character, keeping empty fields. -/
def splitAtWs : List Char → List (List Char)
  | [] => [[]]
  | c :: cs =>
    let r := splitAtWs cs
    if c.isWhitespace then [] :: r
    else
      match r with
      | [] => [[c]]
      | t :: ts => (c :: t) :: ts

/-- `s.split()` with no argument, Python semantics: split on runs of
whitespace and discard empty fields. -/
def pyWhitespaceTokens (cs : List Char) : List (List Char) :=
  (splitAtWs cs).filter (· ≠ [])

/-- One-sided `dropWhile` from both ends: Python `s.strip(chars)`. -/
def pyStrip (p : Char → Bool) (cs : List Char) : List Char :=
  ((cs.dropWhile p).reverse.dropWhile p).reverse

/-- `pat in s` / `s.find(pat) >= 0`: substring occurrence test. -/
def hasSub (pat : List Char) : List Char → Bool
  | [] => pat.isPrefixOf []
  | c :: cs => pat.isPrefixOf (c :: cs) || hasSub pat cs

/-- `s.startswith(pat)`. -/
def pyStartsWith (pat cs : List Char) : Bool := pat.isPrefixOf cs

/-- Join a list of chunks with a one-character separator (inverse of
`pySplitChar`). -/
def joinSep (sep : Char) : List (List Char) → List Char
  | [] => []
  | [t] => t
  | t :: ts => t ++ sep :: joinSep sep ts

/-! ## gdal-config output parsing (setup.py lines 62-76, claim C9) -/

/-- The `include_dirs` loop of setup.py: for each whitespace token of the
`gdal-config --cflags` line, a token starting with `-I` has its remainder
split on `:` and extended onto `include_dirs`; other tokens are ignored. -/
def includeDirsOf (cflags : String) : List String :=
  (pyWhitespaceTokens cflags.toList).foldl
    (fun acc item =>
      if pyStartsWith ['-', 'I'] item then
        acc ++ ((pySplitChar ':' (item.drop 2)).map String.mk)
      else acc) []

/-- One iteration of the `libs` loop of setup.py: `-L` tokens extend
`library_dirs` (split on `:`), otherwise `-l` tokens append to
`libraries`, and any remaining token is appended to `extra_link_args`. -/
def libsLoopStep (st : List String × List String × List String)
    (item : List Char) : List String × List String × List String :=
  if pyStartsWith ['-', 'L'] item then
    (st.1 ++ ((pySplitChar ':' (item.drop 2)).map String.mk), st.2.1, st.2.2)
  else if pyStartsWith ['-', 'l'] item then
    (st.1, st.2.1 ++ [String.mk (item.drop 2)], st.2.2)
  else
    (st.1, st.2.1, st.2.2 ++ [String.mk item])

/-- The `libs` loop of setup.py over the `gdal-config --libs` line,
returning `(library_dirs, libraries, extra_link_args)`. -/
def parseLibsOf (libs : String) : List String × List String × List String :=
  (pyWhitespaceTokens libs.toList).foldl libsLoopStep ([], [], [])

/-- Claim-side formulation: the `-I` tokens of the cflags line, each
contributing its remainder split on `:`. -/
def claimIncludeDirs (cflags : String) : List String :=
  ((pyWhitespaceTokens cflags.toList).filter (pyStartsWith ['-', 'I'])).flatMap
    (fun t => (pySplitChar ':' (t.drop 2)).map String.mk)

/-- Claim-side formulation of `library_dirs`. -/
def claimLibraryDirs (libs : String) : List String :=
  ((pyWhitespaceTokens libs.toList).filter (pyStartsWith ['-', 'L'])).flatMap
    (fun t => (pySplitChar ':' (t.drop 2)).map String.mk)

/-- Claim-side formulation of `libraries`. -/
def claimLibraries (libs : String) : List String :=
  ((pyWhitespaceTokens libs.toList).filter (pyStartsWith ['-', 'l'])).map
    (fun t => String.mk (t.drop 2))

/-- Claim-side formulation of `extra_link_args`: every libs token that
starts with neither `-L` nor `-l`, verbatim. -/
def claimExtraLinkArgs (libs : String) : List String :=
  ((pyWhitespaceTokens libs.toList).filter
    (fun t => !pyStartsWith ['-', 'L'] t && !pyStartsWith ['-', 'l'] t)).map String.mk

theorem includeDirs_foldl_general (f : List Char → List String)
    (p : List Char → Bool) :
    ∀ (xs : List (List Char)) (acc : List String),
      xs.foldl (fun a x => if p x then a ++ f x else a) acc
        = acc ++ (xs.filter p).flatMap f := by
  intro xs
  induction xs with
  | nil => intro acc; simp
  | cons x xs ih =>
    intro acc
    by_cases h : p x = true
    · simp [List.foldl, h, ih, List.append_assoc]
    · simp only [Bool.not_eq_true] at h
      simp [List.foldl, h, ih]

theorem startsWith_L_not_l (t : List Char) (h : pyStartsWith ['-', 'L'] t = true) :
    pyStartsWith ['-', 'l'] t = false := by
  cases t with
  | nil => simp [pyStartsWith, List.isPrefixOf] at h
  | cons a t =>
    cases t with
    | nil => simp [pyStartsWith, List.isPrefixOf] at h
    | cons b t =>
      simp only [pyStartsWith, List.isPrefixOf, Bool.and_eq_true, beq_iff_eq] at h
      obtain ⟨ha, hb, -⟩ := h
      subst hb
      simp [pyStartsWith, List.isPrefixOf]

theorem libsLoop_general :
    ∀ (xs : List (List Char)) (a b c : List String),
      xs.foldl libsLoopStep (a, b, c)
        = (a ++ (xs.filter (pyStartsWith ['-', 'L'])).flatMap
              (fun t => (pySplitChar ':' (t.drop 2)).map String.mk),
           b ++ ((xs.filter (pyStartsWith ['-', 'l'])).map
              (fun t => String.mk (t.drop 2))),
           c ++ ((xs.filter (fun t =>
              !pyStartsWith ['-', 'L'] t && !pyStartsWith ['-', 'l'] t)).map String.mk)) := by
  intro xs
  induction xs with
  | nil => intro a b c; simp
  | cons x xs ih =>
    intro a b c
    by_cases hL : pyStartsWith ['-', 'L'] x = true
    · have hl := startsWith_L_not_l x hL
      simp [List.foldl, libsLoopStep, hL, hl, ih, List.append_assoc]
    · simp only [Bool.not_eq_true] at hL
      by_cases hl : pyStartsWith ['-', 'l'] x = true
      · simp [List.foldl, libsLoopStep, hL, hl, ih, List.append_assoc]
      · simp only [Bool.not_eq_true] at hl
        simp [List.foldl, libsLoopStep, hL, hl, ih, List.append_assoc]

/-- C9. Compiler-option classification: the setup.py loops over the
`gdal-config --cflags` and `--libs` lines agree with the claim's
description — `-I` tokens (remainder split on `:`) make up
`include_dirs` and all other cflags tokens are ignored; `-L` tokens
(remainder split on `:`) make up `library_dirs`, `-l` tokens (remainder)
make up `libraries`, and every other libs token goes verbatim to
`extra_link_args`. -/
theorem compilerOptionClassification (cflags libs : String) :
    includeDirsOf cflags = claimIncludeDirs cflags
    ∧ parseLibsOf libs
        = (claimLibraryDirs libs, claimLibraries libs, claimExtraLinkArgs libs) := by
  constructor
  · unfold includeDirsOf claimIncludeDirs
    rw [includeDirs_foldl_general]
    simp
  · unfold parseLibsOf claimLibraryDirs claimLibraries claimExtraLinkArgs
    rw [libsLoop_general]
    simp

/-! ## The gdal-config try/except block (setup.py lines 56-88, claim C3) -/

/-- Python exceptions visible to the build script. -/
inductive PyExc where
  | osError (msg : String)
  | indexError
  | nameError
  | generic (msg : String)
deriving DecidableEq

deriving instance DecidableEq for Except

/-- `str(e)` for the exceptions above. -/
def pyExcMessage : PyExc → String
  | .osError m => m
  | .indexError => "list index out of range"
  | .nameError => "name version is not defined"
  | .generic m => m

/-- Python truthiness of `os.environ.get(...)`: set and non-empty. -/
def pyTruthy : Option String → Bool
  | none => false
  | some s => s != ""

/-- setup.py line 57: the gdal-config program consulted, read from the
GDAL_CONFIG environment value with compiled-in default `gdal-config`. -/
def gdalConfigProgram (env : String → Option String) : String :=
  (env "GDAL_CONFIG").getD "gdal-config"

/-- Oracle world for the try block: the environment, the three lines that
running the named gdal-config program leaves in gdal-config.txt (or the
exception the subprocess/file I/O raises), and the outcome of
`shutil.copytree src fiona/gdal_data`. -/
structure GdalWorld where
  env : String → Option String
  configOutput : String → Except PyExc (String × String × String)
  copyTree : String → Except PyExc Unit

/-- The four option lists of setup.py lines 51-54. -/
structure ExtConfig where
  include_dirs : List String
  library_dirs : List String
  libraries : List String
  extra_link_args : List String
deriving DecidableEq

def ExtConfig.empty : ExtConfig := ⟨[], [], [], []⟩

/-- The body of the `try:` block (setup.py lines 56-85): run gdal-config,
read and parse its cflags and libs lines, then conditionally copy the
GDAL data directory. Returns the options gathered up to the point the
block stopped, together with the exception if one was raised (Python
state mutated before an exception survives it). -/
def gdalTryBlock (w : GdalWorld) : ExtConfig × Option PyExc :=
  match w.configOutput (gdalConfigProgram w.env) with
  | .error e => (ExtConfig.empty, some e)
  | .ok (cflags, libs, datadir) =>
    let inc := includeDirsOf cflags
    let l3 := parseLibsOf libs
    let cfg : ExtConfig := ⟨inc, l3.1, l3.2.1, l3.2.2⟩
    if pyTruthy (w.env "PACKAGE_DATA") then
      match w.copyTree datadir with
      | .error e => (cfg, some e)
      | .ok _ => (cfg, none)
    else (cfg, none)

/-- setup.py lines 56-88 including the `except Exception` handler: on any
exception the warning `Failed to get options via gdal-config: ...` is
logged and execution continues with the options gathered so far. -/
def gdalSetupOptions (w : GdalWorld) : ExtConfig × List String :=
  match gdalTryBlock w with
  | (cfg, none) => (cfg, [])
  | (cfg, some e) =>
    (cfg, ["Failed to get options via gdal-config: " ++ pyExcMessage e])

/-- C3. Native-backend option discovery never aborts the process: for
every world (every combination of gdal-config output and copy outcome),
the script continues with exactly the `include_dirs`, `library_dirs`,
`libraries` and `extra_link_args` entries gathered before any failure
(none when gdal-config itself failed), and any exception of the try
block is turned into a logged warning rather than propagated. -/
theorem gdalConfigFailureTolerated (w : GdalWorld) :
    (gdalSetupOptions w).1 =
      (match w.configOutput (gdalConfigProgram w.env) with
       | .error _ => ExtConfig.empty
       | .ok (cflags, libs, _) =>
         ⟨includeDirsOf cflags, (parseLibsOf libs).1,
          (parseLibsOf libs).2.1, (parseLibsOf libs).2.2⟩)
    ∧ ((gdalSetupOptions w).2 = []
        ∨ ∃ e, (gdalTryBlock w).2 = some e
            ∧ (gdalSetupOptions w).2
                = ["Failed to get options via gdal-config: " ++ pyExcMessage e]) := by
  unfold gdalSetupOptions gdalTryBlock
  cases hco : w.configOutput (gdalConfigProgram w.env) with
  | error e => exact ⟨rfl, Or.inr ⟨e, rfl, rfl⟩⟩
  | ok triple =>
    obtain ⟨cflags, libs, datadir⟩ := triple
    by_cases hp : pyTruthy (w.env "PACKAGE_DATA") = true
    · cases hct : w.copyTree datadir with
      | error e => simp [hp, hct]
      | ok u => simp [hp, hct]
    · simp only [Bool.not_eq_true] at hp
      simp [hp]

/-! ## PROJ data staging (setup.py lines 90-98, claim C2) -/

/-- Oracle world for the PROJ data staging step. -/
structure StageWorld where
  env : String → Option String
  pathExists : String → Bool
  copyTree : String → Except PyExc Unit

/-- setup.py line 92: the PROJ data directory, read from the PROJ_LIB
environment value with compiled-in default `/usr/local/share/proj`. -/
def projdatadir (env : String → Option String) : String :=
  (env "PROJ_LIB").getD "/usr/local/share/proj"

/-- Whether the staging step copied data or was skipped. -/
inductive StageResult where
  | copied (src : String)
  | skipped
deriving DecidableEq

/-- setup.py lines 91-98: conditionally copy the PROJ data. The copy runs
only when PACKAGE_DATA is truthy and the source directory exists;
otherwise the step is skipped without failing. -/
def projDataStaging (w : StageWorld) : Except PyExc StageResult :=
  if pyTruthy (w.env "PACKAGE_DATA") then
    if w.pathExists (projdatadir w.env) then
      match w.copyTree (projdatadir w.env) with
      | .error e => .error e
      | .ok _ => .ok (.copied (projdatadir w.env))
    else .ok .skipped
  else .ok .skipped

/-- C2. Runtime support data configuration: the format-support side
consults the GDAL_CONFIG environment value (default `gdal-config`
program) and the CRS side consults PROJ_LIB; when PROJ_LIB is unset the
compiled-in `/usr/local/share/proj` is used in its place, and when the
referenced directory does not exist the staging step is skipped without
a hard failure. -/
theorem supportDataEnvConfig (w : StageWorld) :
    (w.env "PROJ_LIB" = none → projdatadir w.env = "/usr/local/share/proj")
    ∧ (∀ p, w.env "PROJ_LIB" = some p → projdatadir w.env = p)
    ∧ (w.pathExists (projdatadir w.env) = false →
        projDataStaging w = .ok .skipped)
    ∧ (∀ env : String → Option String, env "GDAL_CONFIG" = none →
        gdalConfigProgram env = "gdal-config") := by
  refine ⟨?_, ?_, ?_, ?_⟩
  · intro h; simp [projdatadir, h]
  · intro p h; simp [projdatadir, h]
  · intro h
    unfold projDataStaging
    by_cases hp : pyTruthy (w.env "PACKAGE_DATA") = true
    · simp [hp, h]
    · simp only [Bool.not_eq_true] at hp
      simp [hp]
  · intro env h; simp [gdalConfigProgram, h]

/-- A world where PACKAGE_DATA is set, PROJ_LIB is unset and no
directory exists. -/
def stageW0 : StageWorld :=
  ⟨fun k => if k = "PACKAGE_DATA" then some "1" else none,
   fun _ => false, fun _ => .ok ()⟩

theorem supportDataEnvConfig_witness :
    projdatadir stageW0.env = "/usr/local/share/proj"
    ∧ projDataStaging stageW0 = .ok .skipped :=
  ⟨(supportDataEnvConfig stageW0).1 (by decide),
   (supportDataEnvConfig stageW0).2.2.1 (by decide)⟩

/-! ## Version parsing (setup.py lines 22-38, claim C10) -/

def verMarker : List Char := "__version__".toList

/-- `line.find("__version__") >= 0`. -/
def hasVerMarker (line : String) : Bool := hasSub verMarker line.toList

/-- Strip whitespace, then double quotes, then single quotes: the chain
applied by setup.py lines 26-28. -/
def stripChain (cs : List Char) : List Char :=
  pyStrip (fun c => c = '\'') (pyStrip (fun c => c = '"') (pyStrip Char.isWhitespace cs))

/-- `line.split("=")[1]` followed by the strip chain; `none` models the
IndexError raised when the line contains no `=`. -/
def extractVersion (line : String) : Option String :=
  match (pySplitChar '=' line.toList).drop 1 with
  | [] => none
  | seg :: _ => some (String.mk (stripChain seg))

/-- The loop of setup.py lines 24-29 over the lines of fiona/__init__.py:
each line containing `__version__` rebinds `version`. -/
def versionScan : List String → Option String → Except PyExc (Option String)
  | [], acc => .ok acc
  | l :: rest, acc =>
    if hasVerMarker l then
      match extractVersion l with
      | none => .error .indexError
      | some v => versionScan rest (some v)
    else versionScan rest acc

/-- The version string produced by setup.py lines 22-38: the scan of the
module lines; `version` still unbound at line 38 is a NameError. This
exact string is then written to VERSION.txt (line 38) and passed to
setup() as the version (line 137). -/
def readVersion (lines : List String) : Except PyExc String :=
  match versionScan lines none with
  | .error e => .error e
  | .ok none => .error .nameError
  | .ok (some v) => .ok v

/-- Formalises the claim wording: the text after the FIRST `=` of the
line (everything beyond the first `=`), stripped of whitespace, double
and then single quotes. -/
def claimVersionRule (line : String) : String :=
  String.mk (stripChain (joinSep '=' ((pySplitChar '=' line.toList).drop 1)))

/-- The last line of the input containing `__version__`. -/
def lastVerMarkerLine : List String → Option String
  | [] => none
  | l :: rest =>
    match lastVerMarkerLine rest with
    | some v => some v
    | none => if hasVerMarker l then some l else none

/-- C10 counterexample: on the module line `__version__=a=b` the script
takes the segment between the first and the second `=` (giving `a`), not
the text after the first `=` (which per the claim would give `a=b`). -/
theorem versionAfterFirstEq_counterexample :
    readVersion ["__version__=a=b"] = .ok "a"
    ∧ claimVersionRule "__version__=a=b" = "a=b"
    ∧ readVersion ["__version__=a=b"]
        ≠ .ok (claimVersionRule "__version__=a=b") := by decide

theorem versionScan_general (lines : List String) :
    ∀ acc, (∀ l ∈ lines, hasVerMarker l = true → extractVersion l ≠ none) →
      versionScan lines acc =
        .ok (match lastVerMarkerLine lines with
             | none => acc
             | some l => extractVersion l) := by
  induction lines with
  | nil => intro acc _; simp [versionScan, lastVerMarkerLine]
  | cons l rest ih =>
    intro acc h
    by_cases hm : hasVerMarker l = true
    · have hne := h l (by simp) hm
      cases he : extractVersion l with
      | none => exact absurd he hne
      | some v =>
        simp only [versionScan, if_pos hm, he]
        rw [ih (some v) (fun x hx hmx => h x (by simp [hx]) hmx)]
        simp only [lastVerMarkerLine]
        cases hlast : lastVerMarkerLine rest <;> simp [hlast, hm, he]
    · simp only [versionScan, if_neg hm]
      rw [ih acc (fun x hx hmx => h x (by simp [hx]) hmx)]
      simp only [lastVerMarkerLine]
      cases hlast : lastVerMarkerLine rest <;> simp [hlast, hm]

theorem lastVerMarkerLine_mem (lines : List String) :
    ∀ l, lastVerMarkerLine lines = some l →
      l ∈ lines ∧ hasVerMarker l = true := by
  induction lines with
  | nil => intro l h; simp [lastVerMarkerLine] at h
  | cons x rest ih =>
    intro l h
    unfold lastVerMarkerLine at h
    cases hlast : lastVerMarkerLine rest with
    | some v =>
      rw [hlast] at h
      obtain ⟨hm, hmk⟩ := ih l (hlast.trans h)
      exact ⟨by simp [hm], hmk⟩
    | none =>
      rw [hlast] at h
      by_cases hm : hasVerMarker x = true
      · rw [if_pos hm] at h
        cases h
        exact ⟨by simp, hm⟩
      · rw [if_neg hm] at h
        cases h

/-- C10 amended: the package version is the SECOND `=`-separated segment
(the text between the first and second `=`) of the last line containing
`__version__`, stripped of whitespace and of double then single quotes;
with no such line the script fails with a NameError. (Stated for inputs
whose `__version__` lines each contain at least one `=`; a marker line
without `=` raises IndexError instead.) -/
theorem versionSecondSegment (lines : List String)
    (h : ∀ l ∈ lines, hasVerMarker l = true → extractVersion l ≠ none) :
    readVersion lines =
      (match lastVerMarkerLine lines with
       | none => .error .nameError
       | some l =>
         match extractVersion l with
         | none => .error .indexError
         | some v => .ok v) := by
  unfold readVersion
  rw [versionScan_general lines none h]
  cases hlast : lastVerMarkerLine lines with
  | none => rfl
  | some l =>
    obtain ⟨hmem, hmk⟩ := lastVerMarkerLine_mem lines l hlast
    cases he : extractVersion l with
    | none => exact absurd he (h l hmem hmk)
    | some v => simp [he]

theorem versionSecondSegment_witness :
    readVersion ["# comment", "__version__ = \"1.0\""] = .ok "1.0" := by
  rw [versionSecondSegment ["# comment", "__version__ = \"1.0\""] (by decide)]
  decide

/-! ## Console entry points (setup.py lines 151-165, claim C1) -/

/-- The entry_points string of setup.py, verbatim. -/
def entry_points : String :=
  "\n        [console_scripts]\n        fio=fiona.fio.main:cli\n\n        [fiona.fio_commands]\n        bounds=fiona.fio.fio:bounds\n        cat=fiona.fio.fio:cat\n        collect=fiona.fio.fio:collect\n        distrib=fiona.fio.fio:distrib\n        dump=fiona.fio.fio:dump\n        env=fiona.fio.fio:env\n        info=fiona.fio.fio:info\n        insp=fiona.fio.fio:insp\n        load=fiona.fio.fio:load\n        "

/-- Is a stripped line a `[section]` header? -/
def isSectionHeader (cs : List Char) : Bool :=
  cs.head? == some '[' && cs.getLast? == some ']'

/-- Append an entry to the most recently opened section. -/
def addSectionEntry (secs : List (String × List (String × String)))
    (e : String × String) : List (String × List (String × String)) :=
  match secs with
  | [] => []
  | (n, es) :: rest => (n, es ++ [e]) :: rest

/-- Fold the stripped lines into sections (most recent first). -/
def parseEntryPointsRev (lines : List (List Char)) :
    List (String × List (String × String)) :=
  lines.foldl (fun acc line =>
    let l := pyStrip Char.isWhitespace line
    if l = [] then acc
    else if isSectionHeader l then
      (String.mk ((l.drop 1).dropLast), []) :: acc
    else
      match pySplitChar '=' l with
      | k :: v1 :: vrest =>
        addSectionEntry acc
          (String.mk (pyStrip Char.isWhitespace k),
           String.mk (pyStrip Char.isWhitespace (joinSep '=' (v1 :: vrest))))
      | _ => acc) []

/-- INI-style parse of a setuptools entry_points string: section name to
list of `name=target` entries, in order of appearance. -/
def parseEntryPoints (s : String) : List (String × List (String × String)) :=
  (parseEntryPointsRev (pySplitChar '\n' s.toList)).reverse

/-- The `[console_scripts]` entries of the setup.py entry_points. -/
def consoleScripts : List (String × String) :=
  ((parseEntryPoints entry_points).lookup "console_scripts").getD []

/-- The `[fiona.fio_commands]` entries of the setup.py entry_points. -/
def fioCommands : List (String × String) :=
  ((parseEntryPoints entry_points).lookup "fiona.fio_commands").getD []

/-- The module part of an entry-point target `module:attr`. -/
def entryModule (target : String) : String :=
  String.mk ((pySplitChar ':' target.toList).headD [])

/-- C1. The downstream command-line tool registers exactly the nine
subcommands bounds, cat, collect, distrib, dump, env, info, insp, load,
each resolving to a function in the fiona.fio.fio module, and the single
console entry point is named fio (targeting fiona.fio.main:cli). -/
theorem fioEntryPoints :
    consoleScripts = [("fio", "fiona.fio.main:cli")]
    ∧ fioCommands.map Prod.fst
        = ["bounds", "cat", "collect", "distrib", "dump",
           "env", "info", "insp", "load"]
    ∧ fioCommands.map (fun e => entryModule e.2)
        = List.replicate 9 "fiona.fio.fio" := by decide

/-! ## Extension-module selection (setup.py lines 106-127, claim C8) -/

/-- A `setuptools.extension.Extension` argument pair. -/
structure ExtModule where
  name : String
  sources : List String
deriving DecidableEq

/-- The cythonized modules built from .pyx sources (setup.py 114-119). -/
def pyxModules : List ExtModule :=
  [⟨"fiona._geometry", ["fiona/_geometry.pyx"]⟩,
   ⟨"fiona._transform", ["fiona/_transform.pyx"]⟩,
   ⟨"fiona._drivers", ["fiona/_drivers.pyx"]⟩,
   ⟨"fiona._err", ["fiona/_err.pyx"]⟩,
   ⟨"fiona.ogrext", ["fiona/ogrext.pyx"]⟩]

/-- The modules built from pre-generated C/C++ sources (setup.py
122-127). -/
def cModules : List ExtModule :=
  [⟨"fiona._transform", ["fiona/_transform.cpp"]⟩,
   ⟨"fiona._geometry", ["fiona/_geometry.c"]⟩,
   ⟨"fiona._drivers", ["fiona/_drivers.c"]⟩,
   ⟨"fiona._err", ["fiona/_err.c"]⟩,
   ⟨"fiona.ogrext", ["fiona/ogrext.c"]⟩]

/-- How the ext_modules decision of setup.py ends. -/
inductive BuildOutcome where
  | built (mods : List ExtModule) (cythonized : Bool)
  | exited (code : Nat)
deriving DecidableEq

/-- setup.py lines 106-127: when MANIFEST.in exists cythonize is
required (`sys.exit(1)` when the Cython import failed at lines 10-13)
and the build uses .pyx sources; without MANIFEST.in the pre-generated
C/C++ sources are used with no Cython requirement. -/
def selectExtModules (manifestExists cythonizeAvailable : Bool) :
    BuildOutcome :=
  if manifestExists then
    if !cythonizeAvailable then .exited 1
    else .built pyxModules true
  else .built cModules false

/-- C8. Extension-module selection is decided solely by MANIFEST.in
existence: with MANIFEST.in and cythonize the five .pyx modules are
cythonized; with MANIFEST.in and no cythonize the script exits with
status 1; without MANIFEST.in the same five modules come from
pre-generated .c sources (.cpp for fiona._transform), whether or not
Cython is importable. -/
theorem extModuleSelection :
    selectExtModules true true = .built pyxModules true
    ∧ selectExtModules true false = .exited 1
    ∧ selectExtModules false true = .built cModules false
    ∧ selectExtModules false false = .built cModules false
    ∧ pyxModules.map ExtModule.name
        = ["fiona._geometry", "fiona._transform", "fiona._drivers",
           "fiona._err", "fiona.ogrext"]
    ∧ cModules.map ExtModule.name
        = ["fiona._transform", "fiona._geometry", "fiona._drivers",
           "fiona._err", "fiona.ogrext"]
    ∧ cModules.map ExtModule.sources
        = [["fiona/_transform.cpp"], ["fiona/_geometry.c"],
           ["fiona/_drivers.c"], ["fiona/_err.c"], ["fiona/ogrext.c"]] := by
  decide

/-! ## Geometry model and codec (spec sections 3 and 4.4, claim C4)

The vector-data access engine is not shipped under src/ (only the build
script is); per the spec it is the core of the package, so the Geometry
data model and the Geometry Codec are modelled from the spec. -/

/-- Modelled from the spec: a coordinate tuple (x, y, optional z,
optional m) of the spec data model, with exact coordinates. -/
structure Coord where
  x : Int
  y : Int
  z : Option Int
  m : Option Int
deriving DecidableEq

/-- Modelled from the spec: the Geometry tagged variant over Point,
LineString, Polygon, MultiPoint, MultiLineString, MultiPolygon and
GeometryCollection, each carrying ordered coordinate sequences or nested
Geometries. -/
inductive Geometry where
  | point (c : Coord)
  | lineString (cs : List Coord)
  | polygon (rings : List (List Coord))
  | multiPoint (cs : List Coord)
  | multiLineString (lines : List (List Coord))
  | multiPolygon (polys : List (List (List Coord)))
  | geometryCollection (geoms : List Geometry)

/-- Encode an optional coordinate component as a presence flag. -/
def encodeOpt : Option Int → List Int
  | none => [0]
  | some v => [1, v]

def decodeOpt : List Int → Option (Option Int × List Int)
  | [] => none
  | f :: r =>
    if f = 0 then some (none, r)
    else if f = 1 then
      match r with
      | [] => none
      | v :: r2 => some (some v, r2)
    else none

def encodeCoord (c : Coord) : List Int :=
  c.x :: c.y :: (encodeOpt c.z ++ encodeOpt c.m)

def decodeCoord : List Int → Option (Coord × List Int)
  | x :: y :: r =>
    match decodeOpt r with
    | none => none
    | some (z, r) =>
      match decodeOpt r with
      | none => none
      | some (m, r) => some (⟨x, y, z, m⟩, r)
  | _ => none

/-- A counted sequence: length header then the encoded elements. -/
def encodeCtd (enc : α → List Int) (xs : List α) : List Int :=
  (xs.length : Int) :: (xs.map enc).flatten

/-- Read `n` consecutive elements with the element decoder `dec`. -/
def seqDecode (dec : List Int → Option (α × List Int)) :
    Nat → List Int → Option (List α × List Int)
  | 0, r => some ([], r)
  | n + 1, r =>
    match dec r with
    | none => none
    | some (a, r) =>
      match seqDecode dec n r with
      | none => none
      | some (as, r) => some (a :: as, r)

def readCount : List Int → Option (Nat × List Int)
  | [] => none
  | n :: r => if n < 0 then none else some (n.toNat, r)

def decodeCtd (dec : List Int → Option (α × List Int)) (r : List Int) :
    Option (List α × List Int) :=
  match readCount r with
  | none => none
  | some (n, r) => seqDecode dec n r

mutual
/-- Modelled from the spec: `encode(Geometry)` to the native binary form,
here a tag-and-length form over integer tokens; multi-geometries and
collections encode recursively, preserving child order. -/
def encodeGeom : Geometry → List Int
  | .point c => 1 :: encodeCoord c
  | .lineString cs => 2 :: encodeCtd encodeCoord cs
  | .polygon rs => 3 :: encodeCtd (encodeCtd encodeCoord) rs
  | .multiPoint cs => 4 :: encodeCtd encodeCoord cs
  | .multiLineString ls => 5 :: encodeCtd (encodeCtd encodeCoord) ls
  | .multiPolygon ps => 6 :: encodeCtd (encodeCtd (encodeCtd encodeCoord)) ps
  | .geometryCollection gs => 7 :: (gs.length : Int) :: encodeGeomList gs
/-- Concatenated encodings of a list of geometries. -/
def encodeGeomList : List Geometry → List Int
  | [] => []
  | g :: gs => encodeGeom g ++ encodeGeomList gs
end

/-- Modelled from the spec: `decode(bytes)`' recursive worker; `none`
models GeometryConversionError on malformed or unrecognized encodings.
The fuel argument bounds the collection-nesting depth. -/
def decodeGeom : Nat → List Int → Option (Geometry × List Int)
  | 0, _ => none
  | fuel + 1, input =>
    match input with
    | [] => none
    | t :: r =>
      if t = 1 then
        match decodeCoord r with
        | none => none
        | some (c, r) => some (.point c, r)
      else if t = 2 then
        match decodeCtd decodeCoord r with
        | none => none
        | some (cs, r) => some (.lineString cs, r)
      else if t = 3 then
        match decodeCtd (decodeCtd decodeCoord) r with
        | none => none
        | some (rs, r) => some (.polygon rs, r)
      else if t = 4 then
        match decodeCtd decodeCoord r with
        | none => none
        | some (cs, r) => some (.multiPoint cs, r)
      else if t = 5 then
        match decodeCtd (decodeCtd decodeCoord) r with
        | none => none
        | some (ls, r) => some (.multiLineString ls, r)
      else if t = 6 then
        match decodeCtd (decodeCtd (decodeCtd decodeCoord)) r with
        | none => none
        | some (ps, r) => some (.multiPolygon ps, r)
      else if t = 7 then
        match readCount r with
        | none => none
        | some (n, r) =>
          match seqDecode (fun s => decodeGeom fuel s) n r with
          | none => none
          | some (gs, r) => some (.geometryCollection gs, r)
      else none

mutual
/-- Collection-nesting depth of a geometry: the decoder fuel it needs. -/
def geomDepth : Geometry → Nat
  | .geometryCollection gs => geomDepthList gs + 1
  | _ => 1
/-- Largest nesting depth among a list of geometries. -/
def geomDepthList : List Geometry → Nat
  | [] => 0
  | g :: gs => max (geomDepth g) (geomDepthList gs)
end

/-- Modelled from the spec: `decode(bytes)` of a complete encoding;
trailing tokens are rejected as malformed. -/
def decode (bs : List Int) : Option Geometry :=
  match decodeGeom (bs.length + 1) bs with
  | some (g, []) => some g
  | _ => none

theorem decodeOpt_encodeOpt (o : Option Int) (r : List Int) :
    decodeOpt (encodeOpt o ++ r) = some (o, r) := by
  cases o <;> simp [encodeOpt, decodeOpt]

theorem decodeCoord_encodeCoord (c : Coord) (r : List Int) :
    decodeCoord (encodeCoord c ++ r) = some (c, r) := by
  obtain ⟨x, y, z, m⟩ := c
  simp [encodeCoord, decodeCoord, List.append_assoc, decodeOpt_encodeOpt]

theorem seqDecode_flatten (dec : List Int → Option (α × List Int))
    (enc : α → List Int) :
    ∀ (xs : List α) (r : List Int),
      (∀ a ∈ xs, ∀ s, dec (enc a ++ s) = some (a, s)) →
      seqDecode dec xs.length ((xs.map enc).flatten ++ r) = some (xs, r) := by
  intro xs
  induction xs with
  | nil => intro r _; simp [seqDecode]
  | cons a xs ih =>
    intro r h
    have ha := h a (by simp) ((xs.map enc).flatten ++ r)
    simp only [List.map_cons, List.flatten_cons, List.length_cons,
      List.append_assoc, seqDecode, ha]
    rw [ih r (fun b hb s => h b (by simp [hb]) s)]

theorem decodeCtd_encodeCtd (dec : List Int → Option (α × List Int))
    (enc : α → List Int) (xs : List α) (r : List Int)
    (h : ∀ a ∈ xs, ∀ s, dec (enc a ++ s) = some (a, s)) :
    decodeCtd dec (encodeCtd enc xs ++ r) = some (xs, r) := by
  unfold decodeCtd encodeCtd readCount
  have : ¬((xs.length : Int) < 0) := by omega
  simp only [List.cons_append, this, if_false, Int.toNat_natCast]
  rw [seqDecode_flatten dec enc xs r h]

theorem encodeGeomList_eq_flatten :
    ∀ gs : List Geometry, encodeGeomList gs = (gs.map encodeGeom).flatten := by
  intro gs
  induction gs with
  | nil => simp [encodeGeomList]
  | cons g gs ih => simp [encodeGeomList, ih]

theorem geomDepth_le_of_mem :
    ∀ (gs : List Geometry) (g : Geometry), g ∈ gs →
      geomDepth g ≤ geomDepthList gs := by
  intro gs
  induction gs with
  | nil => intro g h; cases h
  | cons x gs ih =>
    intro g h
    rcases List.mem_cons.mp h with h | h
    · subst h; simp [geomDepthList]
    · have := ih g h
      simp [geomDepthList]
      omega

theorem decodeGeom_encodeGeom :
    ∀ (fuel : Nat) (g : Geometry), geomDepth g ≤ fuel →
      ∀ r, decodeGeom fuel (encodeGeom g ++ r) = some (g, r) := by
  intro fuel
  induction fuel with
  | zero =>
    intro g hg r
    exact absurd hg (by cases g <;> simp [geomDepth])
  | succ fuel ih =>
    intro g hg r
    cases g with
    | point c =>
      simp [encodeGeom, decodeGeom, decodeCoord_encodeCoord c r]
    | lineString cs =>
      simp only [encodeGeom, List.cons_append, decodeGeom]
      norm_num
      rw [decodeCtd_encodeCtd decodeCoord encodeCoord cs r
        (fun a _ s => decodeCoord_encodeCoord a s)]
    | polygon rs =>
      simp only [encodeGeom, List.cons_append, decodeGeom]
      norm_num
      rw [decodeCtd_encodeCtd (decodeCtd decodeCoord) (encodeCtd encodeCoord) rs r
        (fun ring _ s => decodeCtd_encodeCtd decodeCoord encodeCoord ring s
          (fun c _ s2 => decodeCoord_encodeCoord c s2))]
    | multiPoint cs =>
      simp only [encodeGeom, List.cons_append, decodeGeom]
      norm_num
      rw [decodeCtd_encodeCtd decodeCoord encodeCoord cs r
        (fun a _ s => decodeCoord_encodeCoord a s)]
    | multiLineString ls =>
      simp only [encodeGeom, List.cons_append, decodeGeom]
      norm_num
      rw [decodeCtd_encodeCtd (decodeCtd decodeCoord) (encodeCtd encodeCoord) ls r
        (fun line _ s => decodeCtd_encodeCtd decodeCoord encodeCoord line s
          (fun c _ s2 => decodeCoord_encodeCoord c s2))]
    | multiPolygon ps =>
      simp only [encodeGeom, List.cons_append, decodeGeom]
      norm_num
      rw [decodeCtd_encodeCtd (decodeCtd (decodeCtd decodeCoord))
        (encodeCtd (encodeCtd encodeCoord)) ps r
        (fun poly _ s => decodeCtd_encodeCtd (decodeCtd decodeCoord)
          (encodeCtd encodeCoord) poly s
          (fun ring _ s2 => decodeCtd_encodeCtd decodeCoord encodeCoord ring s2
            (fun c _ s3 => decodeCoord_encodeCoord c s3)))]
    | geometryCollection gs =>
      have hgs : geomDepthList gs ≤ fuel := by
        simp [geomDepth] at hg
        omega
      simp only [encodeGeom, List.cons_append, decodeGeom]
      norm_num
      have hcount : ¬((gs.length : Int) < 0) := by omega
      simp only [readCount, hcount, if_false, Int.toNat_natCast,
        encodeGeomList_eq_flatten]
      rw [seqDecode_flatten (fun s => decodeGeom fuel s) encodeGeom gs
        (r) (fun g hgmem s => ih g
          (le_trans (geomDepth_le_of_mem gs g hgmem) hgs) s)]

theorem geomDepthList_le_length :
    ∀ gs : List Geometry,
      (∀ g ∈ gs, geomDepth g ≤ (encodeGeom g).length) →
      geomDepthList gs ≤ (encodeGeomList gs).length := by
  intro gs
  induction gs with
  | nil => intro _; simp [geomDepthList, encodeGeomList]
  | cons g gs ih =>
    intro h
    have h1 := h g (by simp)
    have h2 := ih (fun x hx => h x (by simp [hx]))
    simp only [geomDepthList, encodeGeomList, List.length_append]
    omega

theorem geomDepth_le_encodeLength :
    ∀ (n : Nat) (g : Geometry), sizeOf g ≤ n →
      geomDepth g ≤ (encodeGeom g).length := by
  intro n
  induction n with
  | zero =>
    intro g hg
    exact absurd hg (by cases g <;> simp)
  | succ n ih =>
    intro g hg
    cases g with
    | geometryCollection gs =>
      have hmem : ∀ x ∈ gs, geomDepth x ≤ (encodeGeom x).length := by
        intro x hx
        apply ih
        have h1 : sizeOf x < sizeOf gs := List.sizeOf_lt_of_mem hx
        have h2 : sizeOf (Geometry.geometryCollection gs) = 1 + sizeOf gs := by
          simp
        omega
      have := geomDepthList_le_length gs hmem
      simp only [geomDepth, encodeGeom, List.length_cons]
      omega
    | point c => simp [geomDepth, encodeGeom]
    | lineString cs => simp [geomDepth, encodeGeom]
    | polygon rs => simp [geomDepth, encodeGeom]
    | multiPoint cs => simp [geomDepth, encodeGeom]
    | multiLineString ls => simp [geomDepth, encodeGeom]
    | multiPolygon ps => simp [geomDepth, encodeGeom]

/-- C4. Geometry codec round-trip law: for every supported Geometry
variant g, decode (encode g) returns g itself — structural equality with
exact coordinates and part/ring order preserved. -/
theorem geometryCodecRoundTrip (g : Geometry) :
    decode (encodeGeom g) = some g := by
  have hdepth : geomDepth g ≤ (encodeGeom g).length + 1 :=
    le_trans (geomDepth_le_encodeLength (sizeOf g) g le_rfl) (by omega)
  have h := decodeGeom_encodeGeom ((encodeGeom g).length + 1) g hdepth []
  rw [List.append_nil] at h
  unfold decode
  rw [h]

/-! ## DataSource, Layer and Feature Cursor (spec sections 3, 4.2, 4.3,
claims C5, C7). Modelled from the spec: this engine code is not under
src/. -/

/-- Modelled from the spec: a Feature — field values, an optional
geometry and an optional backend-assigned identifier. -/
structure Feature where
  fid : Option Int
  fields : List (String × String)
  geometry : Option Geometry

/-- Modelled from the spec: a Layer — a named, schematized feature
collection. -/
structure Layer where
  name : String
  features : List Feature

/-- Modelled from the spec: a DataSource owning its layers, with a
liveness flag (spec section 9: a liveness flag checked before each
operation) and an open mode. -/
structure DataSource where
  isOpen : Bool
  writable : Bool
  layers : List Layer

/-- Modelled from the spec: the structured error taxonomy kinds used by
the engine operations here. -/
inductive EngineError where
  | unsupportedOperation
  | layerNotFound
deriving DecidableEq

/-- Modelled from the spec: `close()` clears the liveness flag;
releasing an already-released source changes nothing. -/
def DataSource.close (ds : DataSource) : DataSource :=
  { ds with isOpen := false }

/-- Modelled from the spec: a Feature Cursor over a Layer — the pending
backend features and the (attribute/spatial) filter predicate. -/
structure Cursor where
  pred : Feature → Bool
  remaining : List Feature

/-- Modelled from the spec: `cursor(...)` on a Layer starts at the
Layer's full feature sequence. -/
def mkCursor (l : Layer) (pred : Feature → Bool) : Cursor :=
  ⟨pred, l.features⟩

/-- Pull backend features until one passes the filter. -/
def pullMatch (pred : Feature → Bool) :
    List Feature → Option (Feature × List Feature)
  | [] => none
  | f :: rest => if pred f then some (f, rest) else pullMatch pred rest

/-- Modelled from the spec: `next()` — checked against the owning
DataSource's liveness flag; yields `ok none` at end-of-sequence, and
UnsupportedOperation once the DataSource is closed. -/
def Cursor.next (ds : DataSource) (c : Cursor) :
    Except EngineError (Option Feature × Cursor) :=
  if !ds.isOpen then .error .unsupportedOperation
  else
    match pullMatch c.pred c.remaining with
    | none => .ok (none, { c with remaining := [] })
    | some (f, rest) => .ok (some f, { c with remaining := rest })

/-- Modelled from the spec: `insert(feature)` — UnsupportedOperation on
a closed or read-only DataSource, otherwise appends the feature. -/
def Layer.insert (ds : DataSource) (l : Layer) (f : Feature) :
    Except EngineError Layer :=
  if !ds.isOpen then .error .unsupportedOperation
  else if !ds.writable then .error .unsupportedOperation
  else .ok { l with features := l.features ++ [f] }

/-- C5. Closed-source safety: `close()` is idempotent (closing an
already-closed DataSource is a no-op, hence any number of calls after
the first has no further effect), and after close every `cursor.next()`
and `layer.insert(...)` on the source fails with UnsupportedOperation. -/
theorem closeIdempotentAndSafe (ds : DataSource) (c : Cursor)
    (l : Layer) (f : Feature) :
    ds.close.close = ds.close
    ∧ Cursor.next ds.close c = .error .unsupportedOperation
    ∧ Layer.insert ds.close l f = .error .unsupportedOperation :=
  ⟨rfl, rfl, rfl⟩

/-- Drain a cursor by repeated `next()` calls; the fuel is one more than
the pending feature count, so exhaustion is always reached. -/
def drainGo (ds : DataSource) : Nat → Cursor → List Feature
  | 0, _ => []
  | fuel + 1, c =>
    match Cursor.next ds c with
    | .error _ => []
    | .ok (none, _) => []
    | .ok (some f, c2) => f :: drainGo ds fuel c2

/-- All features a cursor yields before signaling end-of-sequence. -/
def drain (ds : DataSource) (c : Cursor) : List Feature :=
  drainGo ds (c.remaining.length + 1) c

theorem drainGo_all (ds : DataSource) (pred : Feature → Bool)
    (hopen : ds.isOpen = true) (hall : ∀ f, pred f = true) :
    ∀ (fs : List Feature) (fuel : Nat), fs.length < fuel →
      drainGo ds fuel ⟨pred, fs⟩ = fs := by
  intro fs
  induction fs with
  | nil =>
    intro fuel hfuel
    obtain ⟨fuel, rfl⟩ : ∃ k, fuel = k + 1 :=
      ⟨fuel - 1, by omega⟩
    simp [drainGo, Cursor.next, hopen, pullMatch]
  | cons f fs ih =>
    intro fuel hfuel
    obtain ⟨fuel, rfl⟩ : ∃ k, fuel = k + 1 :=
      ⟨fuel - 1, by omega⟩
    have : Cursor.next ds ⟨pred, f :: fs⟩ =
        .ok (some f, ⟨pred, fs⟩) := by
      simp [Cursor.next, hopen, pullMatch, hall f]
    rw [drainGo, this]
    show f :: drainGo ds fuel ⟨pred, fs⟩ = f :: fs
    rw [ih fuel (by simp at hfuel; omega)]

/-- C7. Cursor exhaustion: over a Layer holding N features, a cursor
whose filter matches every feature yields exactly those N features (in
order) before signaling end-of-sequence, and each `next()` call pulls
exactly one feature from the pending backend sequence. -/
theorem cursorExhaustion (ds : DataSource) (l : Layer)
    (pred : Feature → Bool) (hopen : ds.isOpen = true)
    (hall : ∀ f, pred f = true) :
    drain ds (mkCursor l pred) = l.features
    ∧ (drain ds (mkCursor l pred)).length = l.features.length
    ∧ ∀ (c : Cursor) (f : Feature) (rest : List Feature),
        c.pred = pred → c.remaining = f :: rest →
        Cursor.next ds c = .ok (some f, { c with remaining := rest }) := by
  have hdrain : drain ds (mkCursor l pred) = l.features :=
    drainGo_all ds pred hopen hall l.features (l.features.length + 1)
      (by omega)
  refine ⟨hdrain, by rw [hdrain], ?_⟩
  intro c f rest hpred hrem
  simp [Cursor.next, hopen, hrem, pullMatch, hpred, hall f]

/-- A one-layer, two-feature world for the exhaustion witness. -/
def featA : Feature := ⟨some 1, [("name", "a")], some (.point ⟨1, 2, none, none⟩)⟩

def featB : Feature := ⟨some 2, [("name", "b")], none⟩

def layer0 : Layer := ⟨"test", [featA, featB]⟩

def ds0 : DataSource := ⟨true, false, [layer0]⟩

theorem cursorExhaustion_witness :
    drain ds0 (mkCursor layer0 (fun _ => true)) = [featA, featB] :=
  (cursorExhaustion ds0 layer0 (fun _ => true) rfl (fun _ => rfl)).1

/-! ## Error Translator (spec section 4.6, claim C6). Modelled from the
spec: this engine code is not under src/. -/

/-- Modelled from the spec: severity of a native diagnostic record. -/
inductive Severity where
  | warning
  | error
  | fatal
deriving DecidableEq

/-- Modelled from the spec: an ErrorRecord — severity, numeric native
code, message text. -/
structure ErrorRecord where
  severity : Severity
  code : Int
  message : String
deriving DecidableEq

/-- Modelled from the spec: the structured error kinds raised for
aborting records, carrying the native code and message. -/
inductive StructuredError where
  | nativeError (code : Int) (message : String)
  | nativeFatalError (code : Int) (message : String)
deriving DecidableEq

/-- The structured error kind corresponding to an aborting record. -/
def structuredOf (r : ErrorRecord) : StructuredError :=
  match r.severity with
  | .fatal => .nativeFatalError r.code r.message
  | _ => .nativeError r.code r.message

/-- A successful operation result with its attached warnings. -/
structure CaptureOutcome (α : Type) where
  result : α
  warnings : List ErrorRecord
deriving DecidableEq

/-- Process the captured records in order: warnings accumulate, the
first error- or fatal-severity record aborts. -/
def captureGo (res : α) (warns : List ErrorRecord) :
    List ErrorRecord → Except StructuredError (CaptureOutcome α)
  | [] => .ok ⟨res, warns⟩
  | r :: rest =>
    match r.severity with
    | .warning => captureGo res (warns ++ [r]) rest
    | _ => .error (structuredOf r)

/-- Modelled from the spec: `with_error_capture(operation)` — the
operation's result together with the ordered native diagnostics raised
during it; warnings are attached, the first aborting record is raised
as its structured error kind. -/
def withErrorCapture (res : α) (records : List ErrorRecord) :
    Except StructuredError (CaptureOutcome α) :=
  captureGo res [] records

/-- The first record of error or fatal severity, if any. -/
def firstAborting : List ErrorRecord → Option ErrorRecord
  | [] => none
  | r :: rest =>
    match r.severity with
    | .warning => firstAborting rest
    | _ => some r

theorem captureGo_general (res : α) :
    ∀ (records warns : List ErrorRecord),
      captureGo res warns records =
        (match firstAborting records with
         | none => .ok ⟨res, warns ++ records⟩
         | some r => .error (structuredOf r)) := by
  intro records
  induction records with
  | nil => intro warns; simp [captureGo, firstAborting]
  | cons r rest ih =>
    intro warns
    cases hs : r.severity with
    | warning =>
      simp only [captureGo, firstAborting, hs, ih (warns ++ [r])]
      cases firstAborting rest <;> simp
    | error => simp [captureGo, firstAborting, hs]
    | fatal => simp [captureGo, firstAborting, hs]

/-- C6. Error Translator severity policy: when no captured record has
error or fatal severity, the operation's result is returned successfully
with ALL records (the warnings, in order) attached to it — never
substituted; when some record has error or fatal severity, the first
such record aborts the operation, raised as its structured error kind
carrying the native numeric code and message. -/
theorem errorTranslatorPolicy (α : Type) (res : α)
    (records : List ErrorRecord) :
    (firstAborting records = none →
      withErrorCapture res records = .ok ⟨res, records⟩)
    ∧ (∀ r, firstAborting records = some r →
        withErrorCapture res records = .error (structuredOf r)
        ∧ (r.severity = .fatal →
            structuredOf r = .nativeFatalError r.code r.message)
        ∧ (r.severity = .error →
            structuredOf r = .nativeError r.code r.message)) := by
  constructor
  · intro h
    unfold withErrorCapture
    rw [captureGo_general res records [], h]
    simp
  · intro r h
    refine ⟨?_, ?_, ?_⟩
    · unfold withErrorCapture
      rw [captureGo_general res records [], h]
    · intro hs; simp [structuredOf, hs]
    · intro hs; simp [structuredOf, hs]

/-- Concrete capture scenarios for the witness: one all-warning run and
one run aborted by an error record. -/
def warnRec : ErrorRecord := ⟨.warning, 4, "w"⟩

def errRec : ErrorRecord := ⟨.error, 10, "boom"⟩

theorem errorTranslatorPolicy_witness :
    withErrorCapture (0 : Nat) [warnRec] = .ok ⟨0, [warnRec]⟩
    ∧ withErrorCapture (0 : Nat) [warnRec, errRec]
        = .error (.nativeError 10 "boom") := by
  constructor
  · exact (errorTranslatorPolicy Nat 0 [warnRec]).1 (by decide)
  · have h := ((errorTranslatorPolicy Nat 0 [warnRec, errRec]).2 errRec
      (by decide)).1
    rw [h]; decide
